import Mathlib

/-! Shallow embedding of the ByteInternet/magento-downloader repository
(`downloader.py` and its near-duplicate `sync.py`), together with proofs
checking the natural-language specification against the code.

Modelling conventions:
* The local filesystem is a total map from path strings to `FileState`.
  `unreadable` models a path for which `os.path.exists` is true but
  `open(path, 'rb')` raises (permissions, directories, ...).
* Python exceptions are modelled with `Except PyErr`; a function that can
  raise returns `Except PyErr` in its result.
* The external collaborators are parameters: `md5hex` stands for
  `hashlib.md5(data).hexdigest()` (hashlib is library code, not part of
  this repository) and `http` maps a URL to the `requests.get` response.
* Every `print` is collected in a `log : List String`, and every call of
  `download_file` (the Fetcher) is recorded as an event
  `(file_name, target)` in `events`.
* A Python dict in the JSON catalog is an association list in iteration
  (insertion) order.  A `CatalogEntry` field whose JSON key can be missing
  is an `Option`: for `md5`, `none` models a missing key (Python
  `file['md5']` raises `KeyError`), `some none` models JSON `null` and
  `some (some s)` a string value.
-/

namespace Magento

/-- State of one path of the local filesystem.  `unreadable` is a path that
exists but cannot be opened for reading (permission error, directory, ...). -/
inductive FileState where
  | absent
  | unreadable
  | readable (content : List Nat)
deriving DecidableEq

/-- The local filesystem: a total map from paths to file states. -/
def FS : Type := String → FileState

/-- Functional update of the filesystem at one path (the effect of writing
a file, or of `os.mkdir`). -/
def FS.set (fs : FS) (p : String) (s : FileState) : FS :=
  fun q => if q = p then s else fs q

/-- The Python exceptions the embedded code can raise. -/
inductive PyErr where
  | keyError
  | typeError
  | valueError
  | ioError
  | assertionError
deriving DecidableEq

/-- Truthiness of an optional string value, as Python `if not want_md5`
sees it: `None` and the empty string are falsy. -/
def pyTruthy : Option String → Bool
  | none => false
  | some s => !(s == "")

/-- One file record of the JSON catalog.
`md5 = none` models an entry whose dict has no "md5" key at all;
`md5 = some none` models `"md5": null`; `md5 = some (some s)` a string.
`ee_versions`/`ce_versions` are read with `.get(..., ())` in the source, so
a missing key (`none`) defaults to the empty sequence. -/
structure CatalogEntry where
  file_name : String
  md5 : Option (Option String)
  ee_versions : Option (List String)
  ce_versions : Option (List String)
deriving DecidableEq

/-- The value under one top-level catalog key: either a plain list of
entries, or a dict grouping entries under arbitrary keys (association list
in iteration order). -/
inductive CatValue where
  | entries (l : List CatalogEntry)
  | grouped (g : List (String × List CatalogEntry))
deriving DecidableEq

/-- Embedding of `if isinstance(files, dict): files = list(itertools.chain.from_iterable(files.values()))`
(downloader.py line 112-113): a grouped dict is flattened by concatenating
its group values in key iteration order; a plain list passes through. -/
def flattenCat : CatValue → List CatalogEntry
  | .entries l => l
  | .grouped g => (g.map Prod.snd).flatten

/-- Component `[2]` of Python `s.rpartition(".")`: the text after the last
dot, or the whole string when the string has no dot
(`"abc".rpartition(".") == ("", "", "abc")`). -/
def rpartition2 (s : String) : String :=
  String.mk ((s.toList.reverse.takeWhile (fun c => !(c == '.'))).reverse)

/-- Embedding of `CATEGORIES = ('ee-full', 'ce-full', 'ee-patch', 'ce-patch')`
(downloader.py line 19; the comment there says: skipping 'other'). -/
def CATEGORIES : List String := ["ee-full", "ce-full", "ee-patch", "ce-patch"]

/-- Embedding of `verify_md5sum(path, want_md5)` (downloader.py lines 79-96, identical in
sync.py).  Returns the emitted diagnostics and the result; reading an
existing but unreadable path raises. -/
def verify_md5sum (md5hex : List Nat → String) (fs : FS) (path : String)
    (want_md5 : Option String) : List String × Except PyErr Bool :=
  if fs path = .absent then
    (["file does not exist: " ++ path], .ok false)
  else if pyTruthy want_md5 = false then
    -- 2.0.7 doesn't have checksums, so don't check that if the file exists
    ([], .ok true)
  else
    match fs path with
    | .readable data =>
      let real_md5 := md5hex data
      -- in this branch want_md5 is a non-empty string, so getD never fires
      if real_md5 = want_md5.getD "" then
        ([], .ok true)
      else
        (["file " ++ path ++ " exists but has different checksum " ++ real_md5], .ok false)
    | _ => ([], .error .ioError)

/-- An HTTP response as far as `download_file` looks at it. -/
structure HTTPResp where
  status : Nat
  contentLength : Option String
  body : List Nat

/-- Is this character kept verbatim by `urllib.parse.quote` with the
default `safe='/'` (unreserved characters plus the slash)? -/
def isQuoteSafe (c : Char) : Bool :=
  c.isAlpha || c.isDigit || c == '-' || c == '.' || c == '_' || c == '~' || c == '/'

/-- Upper-case hexadecimal digit, as used in percent-escapes. -/
def hexUpper (n : Nat) : Char :=
  if n < 10 then Char.ofNat (48 + n) else Char.ofNat (55 + n)

/-- UTF-8 encoding of one code point. -/
def utf8Bytes (n : Nat) : List Nat :=
  if n < 0x80 then [n]
  else if n < 0x800 then [0xC0 + n / 0x40, 0x80 + n % 0x40]
  else if n < 0x10000 then
    [0xE0 + n / 0x1000, 0x80 + (n / 0x40) % 0x40, 0x80 + n % 0x40]
  else
    [0xF0 + n / 0x40000, 0x80 + (n / 0x1000) % 0x40, 0x80 + (n / 0x40) % 0x40, 0x80 + n % 0x40]

/-- Embedding of `urllib.parse.quote(filename)`: safe characters pass through, any other
character has each of its UTF-8 bytes percent-escaped in upper-case hex. -/
def quote (s : String) : String :=
  String.mk (s.toList.flatMap (fun c =>
    if isQuoteSafe c then [c]
    else (utf8Bytes c.toNat).flatMap (fun b => ['%', hexUpper (b / 16), hexUpper (b % 16)])))

/-- The URL `download_file` requests for a file name (downloader.py line 63). -/
def downloadFileURL (filename : String) : String :=
  "https://www.magentocommerce.com/products/downloads/file/" ++ quote filename

/-- Result of one `download_file` call: its prints, and either the updated
filesystem together with the Python return value (`False` on non-200,
`None` on success) or a raised exception. -/
structure FetchResult where
  log : List String
  out : Except PyErr (FS × Option Bool)

/-- Embedding of `download_file(filename, path)` (downloader.py lines 62-77, identical in
sync.py).  On a non-200 status it reports and returns `False` without
touching the filesystem; on a 200 response it evaluates
`int(resp.headers.get('content-length'))` - which raises `TypeError` when
the header is missing and `ValueError` when it is not a number - and then
streams the body to `path`. -/
def download_file (http : String → HTTPResp) (fs : FS) (filename path : String) :
    FetchResult :=
  let url := downloadFileURL filename
  let resp := http url
  if resp.status ≠ 200 then
    { log := ["Downloading " ++ url,
              "Status code " ++ toString resp.status ++ " for " ++ url ++ ", aborting"],
      out := .ok (fs, some false) }
  else
    match resp.contentLength with
    | none => { log := ["Downloading " ++ url], out := .error .typeError }
    | some cl =>
      match cl.toList.foldl (fun acc c =>
          acc.bind (fun n => if c.isDigit then some (n * 10 + (c.toNat - 48)) else none))
          (if cl == "" then none else some 0) with
      | none => { log := ["Downloading " ++ url], out := .error .valueError }
      | some _ =>
        { log := ["Downloading " ++ url, "Saved " ++ path],
          out := .ok (fs.set path (.readable resp.body), none) }

/-- A Fetcher invocation: the `(filename, target)` pair passed to
`download_file`. -/
abbrev Event : Type := String × String

/-- Accumulated observable outcome of a piece of the sync run: the Fetcher
invocations, the prints, and the final filesystem or a raised exception. -/
structure StepResult where
  events : List Event
  log : List String
  out : Except PyErr FS

/-- The body of the per-file loop of `sync_everything`
(downloader.py lines 115-130). -/
def processEntry (md5hex : List Nat → String) (http : String → HTTPResp)
    (category_path : String) (fs : FS) (file : CatalogEntry) : StepResult :=
  if '/' ∈ file.file_name.toList then
    { events := [], log := ["deep path, skipping: " ++ file.file_name], out := .ok fs }
  else if rpartition2 file.file_name = "zip" ∨ rpartition2 file.file_name = "bz2" then
    { events := [], log := [], out := .ok fs }
  else
    let target := category_path ++ "/" ++ file.file_name
    match file.md5 with
    | none => { events := [], log := [], out := .error .keyError }  -- file['md5'] raises
    | some want_md5 =>
      let v := verify_md5sum md5hex fs target want_md5
      match v.2 with
      | .error err => { events := [], log := v.1, out := .error err }
      | .ok true => { events := [], log := v.1 ++ [target], out := .ok fs }
      | .ok false =>
        let dl := download_file http fs file.file_name target
        match dl.out with
        | .error err =>
          { events := [(file.file_name, target)],
            log := v.1 ++ ["md5 mismatch for " ++ file.file_name ++ ", redownloading!"] ++ dl.log,
            out := .error err }
        | .ok (fs2, _) =>
          { events := [(file.file_name, target)],
            log := v.1 ++ ["md5 mismatch for " ++ file.file_name ++ ", redownloading!"]
                   ++ dl.log ++ [target],
            out := .ok fs2 }

/-- The `for file in files` loop: run `step` on each entry in order,
threading the filesystem; an exception stops the loop and propagates. -/
def runEntries (step : FS → CatalogEntry → StepResult) : FS → List CatalogEntry → StepResult
  | fs, [] => { events := [], log := [], out := .ok fs }
  | fs, e :: rest =>
    let r := step fs e
    match r.out with
    | .error err => { events := r.events, log := r.log, out := .error err }
    | .ok fs2 =>
      let r2 := runEntries step fs2 rest
      { events := r.events ++ r2.events, log := r.log ++ r2.log, out := r2.out }

/-- The body of the per-category loop of downloader.py's `sync_everything`
for a recognized category: create the category directory under
`DOWNLOAD_PATH` if missing, flatten a grouped value, run the per-file
loop, and print the category path with the entry count. -/
def syncCategory (md5hex : List Nat → String) (http : String → HTTPResp)
    (downloadPath category : String) (files : CatValue) (fs : FS) : StepResult :=
  let category_path := downloadPath ++ "/" ++ category
  let fs1 := if fs category_path = .absent then fs.set category_path .unreadable else fs
  let fl := flattenCat files
  let r := runEntries (processEntry md5hex http category_path) fs1 fl
  match r.out with
  | .error err => { events := r.events, log := r.log, out := .error err }
  | .ok fs2 =>
    { events := r.events,
      log := r.log ++ [category_path ++ " " ++ toString fl.length],
      out := .ok fs2 }

/-- Embedding of `sync_everything(all_files)` (downloader.py lines 99-132): for each
top-level key in iteration order, skip unknown categories with a
diagnostic and continue, otherwise run the per-category body. -/
def sync_everything (md5hex : List Nat → String) (http : String → HTTPResp)
    (downloadPath : String) : FS → List (String × CatValue) → StepResult
  | fs, [] => { events := [], log := [], out := .ok fs }
  | fs, (category, files) :: rest =>
    if category ∈ CATEGORIES then
      let r := syncCategory md5hex http downloadPath category files fs
      match r.out with
      | .error err => { events := r.events, log := r.log, out := .error err }
      | .ok fs2 =>
        let r2 := sync_everything md5hex http downloadPath fs2 rest
        { events := r.events ++ r2.events,
          log := r.log ++ r2.log,
          out := r2.out }
    else
      let r2 := sync_everything md5hex http downloadPath fs rest
      { events := r2.events,
        log := ("unknown category: " ++ category ++ ", skipping...") :: r2.log,
        out := r2.out }

namespace SyncPy

/-- The per-file loop body of `sync_everything` in sync.py
(lines 107-121): the same checks, but the target directory is the bare
category name and there is no "md5 mismatch" print. -/
def processEntry (md5hex : List Nat → String) (http : String → HTTPResp)
    (category : String) (fs : FS) (file : CatalogEntry) : StepResult :=
  if '/' ∈ file.file_name.toList then
    { events := [], log := ["deep path, skipping: " ++ file.file_name], out := .ok fs }
  else if rpartition2 file.file_name = "zip" ∨ rpartition2 file.file_name = "bz2" then
    { events := [], log := [], out := .ok fs }
  else
    let target := category ++ "/" ++ file.file_name
    match file.md5 with
    | none => { events := [], log := [], out := .error .keyError }
    | some want_md5 =>
      let v := verify_md5sum md5hex fs target want_md5
      match v.2 with
      | .error err => { events := [], log := v.1, out := .error err }
      | .ok true => { events := [], log := v.1 ++ [target], out := .ok fs }
      | .ok false =>
        let dl := download_file http fs file.file_name target
        match dl.out with
        | .error err =>
          { events := [(file.file_name, target)],
            log := v.1 ++ dl.log,
            out := .error err }
        | .ok (fs2, _) =>
          { events := [(file.file_name, target)],
            log := v.1 ++ dl.log ++ [target],
            out := .ok fs2 }

/-- Embedding of `sync_everything(all_files)` of sync.py (lines 95-123): it has no skip
branch - `assert category in ('other', 'ee-full', 'ce-full', 'ee-patch',
'ce-patch')` raises `AssertionError` on anything else, and a catalog key
`'other'` passes the assert and is synced like the rest. -/
def sync_everything (md5hex : List Nat → String) (http : String → HTTPResp) :
    FS → List (String × CatValue) → StepResult
  | fs, [] => { events := [], log := [], out := .ok fs }
  | fs, (category, files) :: rest =>
    if category ∈ ["other", "ee-full", "ce-full", "ee-patch", "ce-patch"] then
      let fs1 := if fs category = .absent then fs.set category .unreadable else fs
      let fl := flattenCat files
      let r := runEntries (processEntry md5hex http category) fs1 fl
      match r.out with
      | .error err => { events := r.events, log := r.log, out := .error err }
      | .ok fs2 =>
        let r2 := sync_everything md5hex http fs2 rest
        { events := r.events ++ r2.events,
          log := r.log ++ (category ++ " " ++ toString fl.length) :: r2.log,
          out := r2.out }
    else
      { events := [], log := [], out := .error .assertionError }

end SyncPy

/-- Boolean lexicographic order on character lists: the order Python uses
to compare strings (by code point, a proper initial segment comes first). -/
def charListLe : List Char → List Char → Bool
  | [], _ => true
  | _ :: _, [] => false
  | a :: as, b :: bs => if a = b then charListLe as bs else decide (a < b)

/-- Comparison of two version-to-patches pairs by their version key, as
`sorted(v2p.items())` orders them (keys are distinct, so the sort never
compares the sets). -/
def keyLE (a b : String × List String) : Prop :=
  charListLe a.1.toList b.1.toList = true

instance : DecidableRel keyLE :=
  fun a b => instDecidableEqBool (charListLe a.1.toList b.1.toList) true

/-- Python `category.endswith('-patch')`. -/
def strEndsWith (s t : String) : Bool :=
  t.toList.isSuffixOf s.toList

/-- The version-to-patches map being built by `calc_req_patches`: an
association list in insertion order; each value is a Python `set`,
modelled as a duplicate-free list in insertion order. -/
abbrev V2P : Type := List (String × List String)

/-- Embedding of `v2p[v].add(file_name)` on a `defaultdict(set)`: create the key with a
singleton set if missing, otherwise add the name to its set. -/
def addPatch : V2P → String → String → V2P
  | [], k, n => [(k, [n])]
  | (k2, s) :: t, k, n =>
    if k2 = k then (k2, if n ∈ s then s else s ++ [n]) :: t
    else (k2, s) :: addPatch t k n

/-- Membership of a name in the set stored under key `k`. -/
def memV2P (m : V2P) (k x : String) : Prop :=
  ∃ p ∈ m, p.1 = k ∧ x ∈ p.2

/-- The version keys one patch entry contributes
(`["EE {}".format(x) ...] + ["CE {}".format(x) ...]`,
downloader.py lines 149-152). -/
def entryKeys (file : CatalogEntry) : List String :=
  (file.ee_versions.getD []).map (fun x => "EE " ++ x)
    ++ (file.ce_versions.getD []).map (fun x => "CE " ++ x)

/-- The inner loop of `calc_req_patches`: add one entry's file name under
each of its version keys. -/
def v2pAddEntry (m : V2P) (file : CatalogEntry) : V2P :=
  (entryKeys file).foldl (fun m2 v => addPatch m2 v file.file_name) m

/-- One top-level catalog key as `calc_req_patches` sees it: keys not
ending in `-patch` are skipped, grouped values are flattened. -/
def v2pAddCat (m : V2P) (c : String × CatValue) : V2P :=
  if strEndsWith c.1 "-patch" then (flattenCat c.2).foldl v2pAddEntry m else m

/-- Embedding of `calc_req_patches(all_files)` (downloader.py lines 135-160, identical
in sync.py), up to its final printing: the version-to-patches map it
builds, in the sorted order in which `sorted(v2p.items())` reports it. -/
def calc_req_patches (all_files : List (String × CatValue)) : V2P :=
  List.insertionSort keyLE (all_files.foldl v2pAddCat [])

/-! Concrete collaborators and filesystems used to instantiate the theorems. -/

/-- A concrete digest function (constant, enough to instantiate theorems). -/
def md5X : List Nat → String := fun _ => "0f343b0931126a20f133d67c2b018a3b"

/-- A server always answering 200 with a content length. -/
def httpOK : String → HTTPResp :=
  fun _ => { status := 200, contentLength := some "1", body := [120] }

/-- A server answering 200 but without a content-length header. -/
def httpNoLen : String → HTTPResp :=
  fun _ => { status := 200, contentLength := none, body := [120] }

/-- A server always answering 404. -/
def http404 : String → HTTPResp :=
  fun _ => { status := 404, contentLength := none, body := [] }

/-- The empty filesystem. -/
def fsEmpty : FS := fun _ => .absent

/-- A filesystem holding one readable file at the ce-full target of a.bin. -/
def fsA : FS := fun p => if p = "/dl/ce-full/a.bin" then .readable [121] else .absent

/-- A filesystem where that target exists but cannot be opened for reading. -/
def fsU : FS := fun p => if p = "/dl/ce-full/a.bin" then .unreadable else .absent

/-! Helper lemmas. -/

theorem takeWhile_all {p : Char → Bool} :
    ∀ l : List Char, (∀ a ∈ l, p a = true) → l.takeWhile p = l := by
  intro l h
  induction l with
  | nil => rfl
  | cons a t ih =>
    have ha : p a = true := h a (List.mem_cons_self a t)
    have ht : t.takeWhile p = t := ih (fun b hb => h b (List.mem_cons_of_mem a hb))
    simp [List.takeWhile_cons, ha, ht]

/-- Python rpartition keeps a dotless string whole in component [2]. -/
theorem rpartition2_of_no_dot (s : String) (h : '.' ∉ s.toList) : rpartition2 s = s := by
  obtain ⟨d⟩ := s
  have hd : String.toList ⟨d⟩ = d := rfl
  rw [hd] at h
  have hall : ∀ a ∈ d.reverse, (!(a == '.')) = true := by
    intro a ha
    rw [List.mem_reverse] at ha
    simp only [Bool.not_eq_eq_eq_not, Bool.not_true, beq_eq_false_iff_ne, ne_eq]
    intro he
    exact h (he ▸ ha)
  show String.mk ((d.reverse.takeWhile _).reverse) = ⟨d⟩
  rw [takeWhile_all d.reverse hall, List.reverse_reverse]

/-- The Checksum Verifier on a missing path. -/
theorem verify_md5sum_absent (md5hex : List Nat → String) (fs : FS) (path : String)
    (w : Option String) (h : fs path = .absent) :
    verify_md5sum md5hex fs path w = (["file does not exist: " ++ path], .ok false) := by
  rw [verify_md5sum, if_pos h]

/-- The per-file loop body on a file name containing a path separator. -/
theorem processEntry_slash (md5hex : List Nat → String) (http : String → HTTPResp)
    (cp : String) (fs : FS) (file : CatalogEntry) (h : '/' ∈ file.file_name.toList) :
    processEntry md5hex http cp fs file =
      { events := [], log := ["deep path, skipping: " ++ file.file_name], out := .ok fs } := by
  rw [processEntry, if_pos h]

/-- The per-file loop body on an excluded zip/bz2 extension. -/
theorem processEntry_skip_ext (md5hex : List Nat → String) (http : String → HTTPResp)
    (cp : String) (fs : FS) (file : CatalogEntry)
    (h1 : '/' ∉ file.file_name.toList)
    (h2 : rpartition2 file.file_name = "zip" ∨ rpartition2 file.file_name = "bz2") :
    processEntry md5hex http cp fs file = { events := [], log := [], out := .ok fs } := by
  rw [processEntry, if_neg h1, if_pos h2]

/-- The per-file loop body when the dict of the entry has no md5 key:
`file['md5']` raises `KeyError`. -/
theorem processEntry_keyError (md5hex : List Nat → String) (http : String → HTTPResp)
    (cp : String) (fs : FS) (file : CatalogEntry)
    (h1 : '/' ∉ file.file_name.toList)
    (h2 : ¬(rpartition2 file.file_name = "zip" ∨ rpartition2 file.file_name = "bz2"))
    (hm : file.md5 = none) :
    processEntry md5hex http cp fs file = { events := [], log := [], out := .error .keyError } := by
  rw [processEntry, if_neg h1, if_neg h2, hm]

/-- The per-file loop body when the Checksum Verifier succeeds: the print
of the target, no Fetcher call, filesystem untouched. -/
theorem processEntry_verify_true (md5hex : List Nat → String) (http : String → HTTPResp)
    (cp : String) (fs : FS) (file : CatalogEntry) (w : Option String)
    (h1 : '/' ∉ file.file_name.toList)
    (h2 : ¬(rpartition2 file.file_name = "zip" ∨ rpartition2 file.file_name = "bz2"))
    (hm : file.md5 = some w)
    (hv : (verify_md5sum md5hex fs (cp ++ "/" ++ file.file_name) w).2 = .ok true) :
    processEntry md5hex http cp fs file =
      { events := [],
        log := (verify_md5sum md5hex fs (cp ++ "/" ++ file.file_name) w).1
               ++ [cp ++ "/" ++ file.file_name],
        out := .ok fs } := by
  simp only [processEntry, if_neg h1, if_neg h2, hm, hv]

/-- The per-file loop body when the Checksum Verifier fails: exactly one
Fetcher invocation is recorded for the entry, whatever the fetch does. -/
theorem processEntry_download_events (md5hex : List Nat → String) (http : String → HTTPResp)
    (cp : String) (fs : FS) (file : CatalogEntry) (w : Option String)
    (h1 : '/' ∉ file.file_name.toList)
    (h2 : ¬(rpartition2 file.file_name = "zip" ∨ rpartition2 file.file_name = "bz2"))
    (hm : file.md5 = some w)
    (hv : (verify_md5sum md5hex fs (cp ++ "/" ++ file.file_name) w).2 = .ok false) :
    (processEntry md5hex http cp fs file).events
      = [(file.file_name, cp ++ "/" ++ file.file_name)] := by
  simp only [processEntry, if_neg h1, if_neg h2, hm, hv]
  rcases hd : (download_file http fs file.file_name (cp ++ "/" ++ file.file_name)).out with
    err | p
  · rfl
  · obtain ⟨fs2, r⟩ := p
    rfl

/-- A non-200 response: `download_file` reports and returns False without
touching the filesystem. -/
theorem download_file_non200 (http : String → HTTPResp) (fs : FS) (filename path : String)
    (h : (http (downloadFileURL filename)).status ≠ 200) :
    download_file http fs filename path =
      { log := ["Downloading " ++ downloadFileURL filename,
                "Status code " ++ toString (http (downloadFileURL filename)).status
                  ++ " for " ++ downloadFileURL filename ++ ", aborting"],
        out := .ok (fs, some false) } := by
  simp only [download_file]
  rw [if_pos h]

/-- A 200 response without a content-length header:
`int(resp.headers.get('content-length'))` raises `TypeError`. -/
theorem download_file_noLen (http : String → HTTPResp) (fs : FS) (filename path : String)
    (h200 : (http (downloadFileURL filename)).status = 200)
    (hcl : (http (downloadFileURL filename)).contentLength = none) :
    download_file http fs filename path =
      { log := ["Downloading " ++ downloadFileURL filename], out := .error .typeError } := by
  simp only [download_file, h200, hcl, ne_eq, not_true_eq_false, if_false]

/-- Whatever `download_file` does, when it returns it has changed the
filesystem at most at the destination path. -/
theorem download_file_ok_fs (http : String → HTTPResp) (fs : FS) (filename path : String)
    (fs2 : FS) (r : Option Bool)
    (h : (download_file http fs filename path).out = .ok (fs2, r)) :
    ∀ q, q ≠ path → fs2 q = fs q := by
  intro q hq
  simp only [download_file] at h
  split at h
  · simp only [Except.ok.injEq, Prod.mk.injEq] at h
    rw [← h.1]
  · split at h
    · cases h
    · split at h
      · cases h
      · simp only [Except.ok.injEq, Prod.mk.injEq] at h
        rw [← h.1, FS.set, if_neg hq]

/-- Whatever the per-file loop body does, when it returns it has changed
the filesystem at most at the target of its entry. -/
theorem processEntry_ok_fs (md5hex : List Nat → String) (http : String → HTTPResp)
    (cp : String) (fs : FS) (file : CatalogEntry) (fs2 : FS)
    (h : (processEntry md5hex http cp fs file).out = .ok fs2) :
    ∀ q, q ≠ cp ++ "/" ++ file.file_name → fs2 q = fs q := by
  intro q hq
  by_cases h1 : '/' ∈ file.file_name.toList
  · rw [processEntry_slash md5hex http cp fs file h1] at h
    cases h
    rfl
  · by_cases h2 : rpartition2 file.file_name = "zip" ∨ rpartition2 file.file_name = "bz2"
    · rw [processEntry_skip_ext md5hex http cp fs file h1 h2] at h
      cases h
      rfl
    · rcases hm : file.md5 with _ | w
      · rw [processEntry_keyError md5hex http cp fs file h1 h2 hm] at h
        exact Except.noConfusion h
      · simp only [processEntry, if_neg h1, if_neg h2, hm] at h
        rcases hv : (verify_md5sum md5hex fs (cp ++ "/" ++ file.file_name) w).2 with e | b
        · rw [hv] at h
          exact Except.noConfusion h
        · cases b
          · rw [hv] at h
            rcases hd :
                (download_file http fs file.file_name (cp ++ "/" ++ file.file_name)).out with
              e2 | p
            · rw [hd] at h
              exact Except.noConfusion h
            · obtain ⟨fs3, r⟩ := p
              rw [hd] at h
              have h3 : Except.ok (ε := PyErr) fs3 = Except.ok fs2 := h
              cases h3
              exact download_file_ok_fs http fs file.file_name _ _ r hd q hq
          · rw [hv] at h
            have h3 : Except.ok (ε := PyErr) fs = Except.ok fs2 := h
            cases h3
            rfl

/-- If the per-file loop body changes the filesystem at a path, it has
recorded a Fetcher invocation whose target is that path: the download is
the only write. -/
theorem processEntry_fs_events (md5hex : List Nat → String) (http : String → HTTPResp)
    (cp : String) (fs : FS) (file : CatalogEntry) (fs2 : FS)
    (h : (processEntry md5hex http cp fs file).out = .ok fs2) :
    ∀ q, fs2 q ≠ fs q → ∃ ev ∈ (processEntry md5hex http cp fs file).events, ev.2 = q := by
  intro q hq
  by_cases h1 : '/' ∈ file.file_name.toList
  · rw [processEntry_slash md5hex http cp fs file h1] at h
    cases h
    exact absurd rfl hq
  · by_cases h2 : rpartition2 file.file_name = "zip" ∨ rpartition2 file.file_name = "bz2"
    · rw [processEntry_skip_ext md5hex http cp fs file h1 h2] at h
      cases h
      exact absurd rfl hq
    · rcases hm : file.md5 with _ | w
      · rw [processEntry_keyError md5hex http cp fs file h1 h2 hm] at h
        exact Except.noConfusion h
      · simp only [processEntry, if_neg h1, if_neg h2, hm] at h ⊢
        rcases hv : (verify_md5sum md5hex fs (cp ++ "/" ++ file.file_name) w).2 with e | b
        · rw [hv] at h
          exact Except.noConfusion h
        · cases b
          · rw [hv] at h
            rcases hd :
                (download_file http fs file.file_name (cp ++ "/" ++ file.file_name)).out with
              e2 | p
            · rw [hd] at h
              exact Except.noConfusion h
            · obtain ⟨fs3, r⟩ := p
              rw [hd] at h
              have h3 : Except.ok (ε := PyErr) fs3 = Except.ok fs2 := h
              cases h3
              by_cases hqt : q = cp ++ "/" ++ file.file_name
              · refine ⟨(file.file_name, cp ++ "/" ++ file.file_name), ?_, hqt.symm⟩
                show (file.file_name, cp ++ "/" ++ file.file_name)
                  ∈ [(file.file_name, cp ++ "/" ++ file.file_name)]
                exact List.mem_singleton.mpr rfl
              · exact absurd (download_file_ok_fs http fs file.file_name _ _ r hd q hqt) hq
          · rw [hv] at h
            have h3 : Except.ok (ε := PyErr) fs = Except.ok fs2 := h
            cases h3
            exact absurd rfl hq

/-- Every Fetcher invocation recorded by the per-file loop body is for the
entry's own file name, at the flat target path under the category
directory, and only for a separator-free name. -/
theorem processEntry_events_shape (md5hex : List Nat → String) (http : String → HTTPResp)
    (cp : String) (fs : FS) (file : CatalogEntry) (ev : Event)
    (h : ev ∈ (processEntry md5hex http cp fs file).events) :
    ev = (file.file_name, cp ++ "/" ++ file.file_name) ∧ '/' ∉ file.file_name.toList := by
  by_cases h1 : '/' ∈ file.file_name.toList
  · rw [processEntry_slash md5hex http cp fs file h1] at h
    simp at h
  · refine ⟨?_, h1⟩
    by_cases h2 : rpartition2 file.file_name = "zip" ∨ rpartition2 file.file_name = "bz2"
    · rw [processEntry_skip_ext md5hex http cp fs file h1 h2] at h
      simp at h
    · simp only [processEntry, if_neg h1, if_neg h2] at h
      split at h
      · simp at h
      · split at h
        · simp at h
        · simp at h
        · split at h
          · simp only [List.mem_singleton] at h
            exact h
          · simp only [List.mem_singleton] at h
            exact h

/-- The entry loop, one step: the events, prints and final state of
`e :: rest` decompose into those of `e` followed by those of `rest`
whenever processing `e` does not raise. -/
theorem runEntries_cons_ok (step : FS → CatalogEntry → StepResult) (fs fs2 : FS)
    (e : CatalogEntry) (rest : List CatalogEntry)
    (h : (step fs e).out = .ok fs2) :
    runEntries step fs (e :: rest) =
      { events := (step fs e).events ++ (runEntries step fs2 rest).events,
        log := (step fs e).log ++ (runEntries step fs2 rest).log,
        out := (runEntries step fs2 rest).out } := by
  rw [runEntries]
  simp only [h]

/-- The entry loop, one step: an exception while processing `e` stops the
loop and propagates. -/
theorem runEntries_cons_error (step : FS → CatalogEntry → StepResult) (fs : FS)
    (e : CatalogEntry) (rest : List CatalogEntry) (err : PyErr)
    (h : (step fs e).out = .error err) :
    runEntries step fs (e :: rest) =
      { events := (step fs e).events, log := (step fs e).log, out := .error err } := by
  rw [runEntries]
  simp only [h]

/-- Any property of the events of one step holds of all events of the loop,
tagged with the entry of the list that produced them. -/
theorem runEntries_events_shape (step : FS → CatalogEntry → StepResult)
    (Q : Event → CatalogEntry → Prop)
    (hstep : ∀ fs e ev, ev ∈ (step fs e).events → Q ev e) :
    ∀ (l : List CatalogEntry) (fs : FS) (ev : Event),
      ev ∈ (runEntries step fs l).events → ∃ e ∈ l, Q ev e := by
  intro l
  induction l with
  | nil => intro fs ev h; simp [runEntries] at h
  | cons e rest ih =>
    intro fs ev h
    rcases ho : (step fs e).out with err | fs2
    · rw [runEntries_cons_error step fs e rest err ho] at h
      exact ⟨e, List.mem_cons_self e rest, hstep fs e ev h⟩
    · rw [runEntries_cons_ok step fs fs2 e rest ho] at h
      rcases List.mem_append.mp h with hl | hr
      · exact ⟨e, List.mem_cons_self e rest, hstep fs e ev hl⟩
      · obtain ⟨e2, he2, hq⟩ := ih fs2 ev hr
        exact ⟨e2, List.mem_cons_of_mem e he2, hq⟩

/-- If each step can change the filesystem only at the target recorded in
its own events, the whole loop changes it only at paths recorded in its
events. -/
theorem runEntries_ok_fs (step : FS → CatalogEntry → StepResult)
    (hstep : ∀ fs e fs2, (step fs e).out = .ok fs2 →
      ∀ q, fs2 q ≠ fs q → ∃ ev ∈ (step fs e).events, ev.2 = q) :
    ∀ (l : List CatalogEntry) (fs fs2 : FS),
      (runEntries step fs l).out = .ok fs2 →
      ∀ q, fs2 q ≠ fs q → ∃ ev ∈ (runEntries step fs l).events, ev.2 = q := by
  intro l
  induction l with
  | nil =>
    intro fs fs2 h q hq
    simp only [runEntries, Except.ok.injEq] at h
    rw [← h] at hq
    exact absurd rfl hq
  | cons e rest ih =>
    intro fs fs2 h q hq
    rcases ho : (step fs e).out with err | fs1
    · rw [runEntries_cons_error step fs e rest err ho] at h
      cases h
    · rw [runEntries_cons_ok step fs fs1 e rest ho] at h ⊢
      simp only [List.mem_append]
      by_cases hmid : fs1 q = fs q
      · rw [← hmid] at hq
        obtain ⟨ev, hev, he⟩ := ih fs1 fs2 h q hq
        exact ⟨ev, Or.inr hev, he⟩
      · obtain ⟨ev, hev, he⟩ := hstep fs e fs1 ho q hmid
        exact ⟨ev, Or.inl hev, he⟩

/--
Claim C2: for a sync-eligible entry whose md5 field is present, if the
Checksum Verifier returns true the Fetcher is not invoked for the entry,
and if the target file does not exist the Verifier returns false and the
Fetcher is invoked exactly once for the entry.
-/
theorem c2_fetch_decision (md5hex : List Nat → String) (http : String → HTTPResp)
    (cp : String) (fs : FS) (file : CatalogEntry) (w : Option String)
    (h1 : '/' ∉ file.file_name.toList)
    (h2 : ¬(rpartition2 file.file_name = "zip" ∨ rpartition2 file.file_name = "bz2"))
    (hm : file.md5 = some w) :
    ((verify_md5sum md5hex fs (cp ++ "/" ++ file.file_name) w).2 = .ok true →
      (processEntry md5hex http cp fs file).events = []) ∧
    (fs (cp ++ "/" ++ file.file_name) = .absent →
      (verify_md5sum md5hex fs (cp ++ "/" ++ file.file_name) w).2 = .ok false ∧
      (processEntry md5hex http cp fs file).events
        = [(file.file_name, cp ++ "/" ++ file.file_name)]) := by
  constructor
  · intro hv
    rw [processEntry_verify_true md5hex http cp fs file w h1 h2 hm hv]
  · intro habs
    have hv : (verify_md5sum md5hex fs (cp ++ "/" ++ file.file_name) w).2 = .ok false := by
      rw [verify_md5sum_absent md5hex fs _ w habs]
    exact ⟨hv, processEntry_download_events md5hex http cp fs file w h1 h2 hm hv⟩

/-- Witness for C2: a missing target makes the concrete run fetch a.bin
exactly once. -/
theorem c2_fetch_decision_witness :
    (verify_md5sum md5X fsEmpty ("/dl/ce-full" ++ "/" ++ "a.bin") (some "ff")).2
      = .ok false ∧
    (processEntry md5X httpOK "/dl/ce-full" fsEmpty
        ⟨"a.bin", some (some "ff"), none, none⟩).events
      = [("a.bin", "/dl/ce-full" ++ "/" ++ "a.bin")] :=
  (c2_fetch_decision md5X httpOK "/dl/ce-full" fsEmpty
      ⟨"a.bin", some (some "ff"), none, none⟩ (some "ff")
      (by decide) (by decide) rfl).2 rfl

/--
Claim C4: the Sync Planner writes only to flat paths directly under the
category directory: an entry whose file name contains a path separator is
skipped with a diagnostic, without writing or raising; an entry with a
zip or bz2 extension is skipped silently and never passed to the Fetcher
even when its target is absent; and over a whole per-category run, the
filesystem changes only at paths of the form category_path/name for a
separator-free name, with every recorded Fetcher invocation of that same
shape.
-/
theorem c4_write_containment (md5hex : List Nat → String) (http : String → HTTPResp)
    (cp : String) (fs : FS) (file : CatalogEntry) :
    ('/' ∈ file.file_name.toList →
      processEntry md5hex http cp fs file =
        { events := [], log := ["deep path, skipping: " ++ file.file_name], out := .ok fs }) ∧
    ('/' ∉ file.file_name.toList →
      (rpartition2 file.file_name = "zip" ∨ rpartition2 file.file_name = "bz2") →
      processEntry md5hex http cp fs file = { events := [], log := [], out := .ok fs }) ∧
    (∀ (l : List CatalogEntry) (fs2 : FS),
      (runEntries (processEntry md5hex http cp) fs l).out = .ok fs2 →
      ∀ q, fs2 q ≠ fs q → ∃ name, q = cp ++ "/" ++ name ∧ '/' ∉ name.toList) ∧
    (∀ (l : List CatalogEntry) (ev : Event),
      ev ∈ (runEntries (processEntry md5hex http cp) fs l).events →
      ∃ e ∈ l, ev = (e.file_name, cp ++ "/" ++ e.file_name) ∧ '/' ∉ e.file_name.toList) := by
  refine ⟨processEntry_slash md5hex http cp fs file,
          processEntry_skip_ext md5hex http cp fs file, ?_, ?_⟩
  · intro l fs2 h q hq
    obtain ⟨ev, hev, he⟩ :=
      runEntries_ok_fs (processEntry md5hex http cp)
        (fun fs3 e fs4 => processEntry_fs_events md5hex http cp fs3 e fs4) l fs fs2 h q hq
    obtain ⟨e, _, hshape, hsl⟩ :=
      runEntries_events_shape (processEntry md5hex http cp)
        (fun ev e => ev = (e.file_name, cp ++ "/" ++ e.file_name) ∧ '/' ∉ e.file_name.toList)
        (processEntry_events_shape md5hex http cp) l fs ev hev
    exact ⟨e.file_name, by rw [← he, hshape], hsl⟩
  · intro l ev h
    exact runEntries_events_shape (processEntry md5hex http cp)
      (fun ev e => ev = (e.file_name, cp ++ "/" ++ e.file_name) ∧ '/' ∉ e.file_name.toList)
      (processEntry_events_shape md5hex http cp) l fs ev h

/-- Witness for C4: the traversal-attempt entry of the spec is skipped
with the diagnostic and nothing is written or fetched. -/
theorem c4_write_containment_witness :
    processEntry md5X httpOK "/dl/ce-full" fsEmpty
        ⟨"sub/dir/evil.bin", some (some "ff"), none, none⟩ =
      { events := [], log := ["deep path, skipping: " ++ "sub/dir/evil.bin"],
        out := .ok fsEmpty } :=
  (c4_write_containment md5X httpOK "/dl/ce-full" fsEmpty
      ⟨"sub/dir/evil.bin", some (some "ff"), none, none⟩).1 (by decide)

/--
Claim C1: verify_md5sum returns false when no file exists at the path,
true when the file exists and the expected digest is absent or empty, and
otherwise (on readable content) returns exactly whether the digest of the
content equals the expected string, emitting a diagnostic instead of
raising on a mismatch.
-/
theorem c1_verify_md5sum_contract (md5hex : List Nat → String) (fs : FS)
    (path : String) (w : Option String) :
    (fs path = .absent →
      verify_md5sum md5hex fs path w = (["file does not exist: " ++ path], .ok false)) ∧
    (fs path ≠ .absent → pyTruthy w = false →
      verify_md5sum md5hex fs path w = ([], .ok true)) ∧
    (∀ data s, fs path = .readable data → w = some s → s ≠ "" →
      verify_md5sum md5hex fs path w =
        if md5hex data = s then ([], .ok true)
        else (["file " ++ path ++ " exists but has different checksum " ++ md5hex data],
              .ok false)) := by
  refine ⟨fun h => ?_, fun h1 h2 => ?_, fun data s hd hw hs => ?_⟩
  · rw [verify_md5sum, if_pos h]
  · rw [verify_md5sum, if_neg h1, if_pos h2]
  · subst hw
    have hne : fs path ≠ .absent := by rw [hd]; intro hc; cases hc
    have ht : pyTruthy (some s) = true := by
      simp [pyTruthy, hs]
    rw [verify_md5sum, if_neg hne, if_neg (by rw [ht]; intro hc; cases hc), hd]
    simp

/-- Witness for C1: on the concrete one-file filesystem, a wrong expected
digest makes verify_md5sum report the computed digest and return false. -/
theorem c1_verify_md5sum_contract_witness :
    verify_md5sum md5X fsA "/dl/ce-full/a.bin" (some "zz") =
      if md5X [121] = "zz" then ([], .ok true)
      else (["file " ++ "/dl/ce-full/a.bin" ++ " exists but has different checksum "
             ++ md5X [121]], .ok false) :=
  (c1_verify_md5sum_contract md5X fsA "/dl/ce-full/a.bin" (some "zz")).2.2
    [121] "zz" rfl rfl (by decide)

/--
Claim C5: for every recognized category whose catalog value is a mapping
from grouping keys to entry sequences, the classifier flattens it by
concatenating the group values in the mapping's own key iteration order,
preserving within-group order; flattening the grouped value
1.9 -> [A, B], 1.10 -> [C] yields [A, B, C]; an entry-sequence value is
passed through unchanged.
-/
theorem c5_flatten_classifier :
    (∀ g : List (String × List CatalogEntry),
      flattenCat (.grouped g) = (g.map Prod.snd).flatten) ∧
    (∀ l : List CatalogEntry, flattenCat (.entries l) = l) ∧
    (∀ A B C : CatalogEntry,
      flattenCat (.grouped [("1.9", [A, B]), ("1.10", [C])]) = [A, B, C]) :=
  ⟨fun _ => rfl, fun _ => rfl, fun A B C => by simp [flattenCat]⟩

/--
Claim C8 counterexample: the claim says an existing but unreadable file
makes the Checksum Verifier return false rather than propagate an
exception.  The code has no exception handling: on the concrete
filesystem where the path exists but cannot be opened, verify_md5sum
raises (the IOError of open propagates) instead of returning false.
-/
theorem c8_counterexample :
    verify_md5sum md5X fsU "/dl/ce-full/a.bin" (some "aa") = ([], .error .ioError) := rfl

/--
Claim C8 (amended): a path at which no file exists makes verify_md5sum
return false without raising, but a path that exists and cannot be read
makes the read error propagate out of verify_md5sum (there is no handler),
aborting the run.
-/
theorem c8_amended (md5hex : List Nat → String) (fs : FS) (path : String)
    (w : Option String) :
    (fs path = .absent →
      verify_md5sum md5hex fs path w = (["file does not exist: " ++ path], .ok false)) ∧
    (fs path = .unreadable → pyTruthy w = true →
      verify_md5sum md5hex fs path w = ([], .error .ioError)) := by
  constructor
  · intro h
    rw [verify_md5sum, if_pos h]
  · intro h ht
    have hne : fs path ≠ .absent := by rw [h]; intro hc; cases hc
    rw [verify_md5sum, if_neg hne, if_neg (by rw [ht]; intro hc; cases hc), h]

/-- Witness for the amended C8: instantiated on the concrete filesystems. -/
theorem c8_amended_witness :
    verify_md5sum md5X fsEmpty "/dl/ce-full/a.bin" (some "aa") =
      (["file does not exist: " ++ "/dl/ce-full/a.bin"], .ok false) :=
  (c8_amended md5X fsEmpty "/dl/ce-full/a.bin" (some "aa")).1 rfl

/--
Claim C10: an entry whose file_name contains no dot and is exactly "zip"
or "bz2" is silently skipped by both sync loops and never passed to the
Fetcher, because component [2] of rpartition on a dotless string is the
whole string.
-/
theorem c10_dotless_extension
    (md5hex : List Nat → String) (http : String → HTTPResp)
    (category_path : String) (fs : FS)
    (m : Option (Option String)) (ee ce : Option (List String)) :
    (∀ s : String, '.' ∉ s.toList → rpartition2 s = s) ∧
    (processEntry md5hex http category_path fs ⟨"zip", m, ee, ce⟩ =
      { events := [], log := [], out := .ok fs }) ∧
    (processEntry md5hex http category_path fs ⟨"bz2", m, ee, ce⟩ =
      { events := [], log := [], out := .ok fs }) ∧
    (SyncPy.processEntry md5hex http category_path fs ⟨"zip", m, ee, ce⟩ =
      { events := [], log := [], out := .ok fs }) ∧
    (SyncPy.processEntry md5hex http category_path fs ⟨"bz2", m, ee, ce⟩ =
      { events := [], log := [], out := .ok fs }) :=
  ⟨rpartition2_of_no_dot, rfl, rfl, rfl, rfl⟩

/-- Witness for C10: the dotless name "zip" is its own extension component. -/
theorem c10_dotless_extension_witness :
    ('.' ∉ "zip".toList) ∧ rpartition2 "zip" = "zip" :=
  ⟨by decide,
   (c10_dotless_extension md5X httpOK "/dl/ce-full" fsEmpty none none none).1
     "zip" (by decide)⟩

/-- The per-file loop body, verify failed and the server answers non-200:
one Fetcher call recorded, the status reported, the filesystem untouched,
no exception. -/
theorem processEntry_non200 (md5hex : List Nat → String) (http : String → HTTPResp)
    (cp : String) (fs : FS) (file : CatalogEntry) (w : Option String)
    (h1 : '/' ∉ file.file_name.toList)
    (h2 : ¬(rpartition2 file.file_name = "zip" ∨ rpartition2 file.file_name = "bz2"))
    (hm : file.md5 = some w)
    (hv : (verify_md5sum md5hex fs (cp ++ "/" ++ file.file_name) w).2 = .ok false)
    (hst : (http (downloadFileURL file.file_name)).status ≠ 200) :
    processEntry md5hex http cp fs file =
      { events := [(file.file_name, cp ++ "/" ++ file.file_name)],
        log := (verify_md5sum md5hex fs (cp ++ "/" ++ file.file_name) w).1
               ++ ["md5 mismatch for " ++ file.file_name ++ ", redownloading!"]
               ++ ["Downloading " ++ downloadFileURL file.file_name,
                   "Status code " ++ toString (http (downloadFileURL file.file_name)).status
                     ++ " for " ++ downloadFileURL file.file_name ++ ", aborting"]
               ++ [cp ++ "/" ++ file.file_name],
        out := .ok fs } := by
  have hdl := download_file_non200 http fs file.file_name (cp ++ "/" ++ file.file_name) hst
  simp only [processEntry, if_neg h1, if_neg h2, hm, hv, hdl]

/-- The per-file loop body, verify failed and the 200 response has no
content-length header: the TypeError of `int(None)` propagates. -/
theorem processEntry_noLen (md5hex : List Nat → String) (http : String → HTTPResp)
    (cp : String) (fs : FS) (file : CatalogEntry) (w : Option String)
    (h1 : '/' ∉ file.file_name.toList)
    (h2 : ¬(rpartition2 file.file_name = "zip" ∨ rpartition2 file.file_name = "bz2"))
    (hm : file.md5 = some w)
    (hv : (verify_md5sum md5hex fs (cp ++ "/" ++ file.file_name) w).2 = .ok false)
    (h200 : (http (downloadFileURL file.file_name)).status = 200)
    (hcl : (http (downloadFileURL file.file_name)).contentLength = none) :
    processEntry md5hex http cp fs file =
      { events := [(file.file_name, cp ++ "/" ++ file.file_name)],
        log := (verify_md5sum md5hex fs (cp ++ "/" ++ file.file_name) w).1
               ++ ["md5 mismatch for " ++ file.file_name ++ ", redownloading!"]
               ++ ["Downloading " ++ downloadFileURL file.file_name],
        out := .error .typeError } := by
  have hdl := download_file_noLen http fs file.file_name (cp ++ "/" ++ file.file_name) h200 hcl
  simp only [processEntry, if_neg h1, if_neg h2, hm, hv, hdl]

/--
Claim C6 counterexample: the claim says every per-file fetch failure,
including a success response lacking a content-length header, is reported
and the loop continues.  On the concrete catalog with one entry and a
server answering 200 without content-length, the run raises TypeError
(from `int(resp.headers.get('content-length'))`) and aborts instead.
-/
theorem c6_counterexample :
    (sync_everything md5X httpNoLen "/dl" fsEmpty
        [("ce-full", .entries [⟨"a.bin", some (some "ff"), none, none⟩])]).out
      = .error .typeError := rfl

/--
Claim C6 (amended): an HTTP response with non-success status is reported
and the sync loop continues to the next entry without raising; but a
success response lacking a content-length header raises TypeError out of
the per-entry loop and aborts the sync run.
-/
theorem c6_fetch_failures (md5hex : List Nat → String) (http : String → HTTPResp)
    (cp : String) (fs : FS) (file : CatalogEntry) (w : Option String)
    (rest : List CatalogEntry)
    (h1 : '/' ∉ file.file_name.toList)
    (h2 : ¬(rpartition2 file.file_name = "zip" ∨ rpartition2 file.file_name = "bz2"))
    (hm : file.md5 = some w)
    (hv : (verify_md5sum md5hex fs (cp ++ "/" ++ file.file_name) w).2 = .ok false) :
    ((http (downloadFileURL file.file_name)).status ≠ 200 →
      (processEntry md5hex http cp fs file).out = .ok fs ∧
      ("Status code " ++ toString (http (downloadFileURL file.file_name)).status
          ++ " for " ++ downloadFileURL file.file_name ++ ", aborting")
        ∈ (processEntry md5hex http cp fs file).log ∧
      runEntries (processEntry md5hex http cp) fs (file :: rest) =
        { events := (processEntry md5hex http cp fs file).events
                    ++ (runEntries (processEntry md5hex http cp) fs rest).events,
          log := (processEntry md5hex http cp fs file).log
                 ++ (runEntries (processEntry md5hex http cp) fs rest).log,
          out := (runEntries (processEntry md5hex http cp) fs rest).out }) ∧
    ((http (downloadFileURL file.file_name)).status = 200 →
      (http (downloadFileURL file.file_name)).contentLength = none →
      (processEntry md5hex http cp fs file).out = .error .typeError) := by
  constructor
  · intro hst
    have hpe := processEntry_non200 md5hex http cp fs file w h1 h2 hm hv hst
    refine ⟨by rw [hpe], by rw [hpe]; simp, ?_⟩
    exact runEntries_cons_ok (processEntry md5hex http cp) fs fs file rest (by rw [hpe])
  · intro h200 hcl
    rw [processEntry_noLen md5hex http cp fs file w h1 h2 hm hv h200 hcl]

/-- Witness for the amended C6: against the concrete 404 server, the one
eligible entry is fetched, the failure is logged, nothing raises, and the
loop equation holds for the singleton list. -/
theorem c6_fetch_failures_witness :
    (processEntry md5X http404 "/dl/ce-full" fsEmpty
        ⟨"a.bin", some (some "ff"), none, none⟩).out = .ok fsEmpty ∧
    ("Status code " ++ toString (http404 (downloadFileURL "a.bin")).status
        ++ " for " ++ downloadFileURL "a.bin" ++ ", aborting")
      ∈ (processEntry md5X http404 "/dl/ce-full" fsEmpty
          ⟨"a.bin", some (some "ff"), none, none⟩).log ∧
    runEntries (processEntry md5X http404 "/dl/ce-full") fsEmpty
        [⟨"a.bin", some (some "ff"), none, none⟩] =
      { events := (processEntry md5X http404 "/dl/ce-full" fsEmpty
                    ⟨"a.bin", some (some "ff"), none, none⟩).events
                  ++ (runEntries (processEntry md5X http404 "/dl/ce-full") fsEmpty []).events,
        log := (processEntry md5X http404 "/dl/ce-full" fsEmpty
                  ⟨"a.bin", some (some "ff"), none, none⟩).log
               ++ (runEntries (processEntry md5X http404 "/dl/ce-full") fsEmpty []).log,
        out := (runEntries (processEntry md5X http404 "/dl/ce-full") fsEmpty []).out } :=
  (c6_fetch_failures md5X http404 "/dl/ce-full" fsEmpty
      ⟨"a.bin", some (some "ff"), none, none⟩ (some "ff") []
      (by decide) (by decide) rfl rfl).1 (by decide)

/--
Claim C7 counterexample: the claim says an entry whose md5 field is
absent does not make the sync run raise.  On the concrete catalog whose
single entry carries no md5 key at all, and whose target file already
exists, the run raises KeyError at `file['md5']` and aborts.
-/
theorem c7_counterexample :
    (sync_everything md5X httpOK "/dl" fsA
        [("ce-full", .entries [⟨"a.bin", none, none, none⟩])]).out
      = .error .keyError := rfl

/--
Claim C7 (amended): for an eligible entry whose md5 field is present but
empty or null, the sync run does not raise and re-verifies only presence:
whenever the target exists, whatever its content, verify returns true, no
Fetcher call happens and the filesystem is unchanged - so a second run
never re-fetches such a file.  An entry missing the md5 key entirely,
however, raises KeyError.
-/
theorem c7_missing_digest (md5hex : List Nat → String) (http : String → HTTPResp)
    (cp : String) (fs : FS) (file : CatalogEntry)
    (h1 : '/' ∉ file.file_name.toList)
    (h2 : ¬(rpartition2 file.file_name = "zip" ∨ rpartition2 file.file_name = "bz2")) :
    (∀ w, file.md5 = some w → pyTruthy w = false →
      fs (cp ++ "/" ++ file.file_name) ≠ .absent →
      processEntry md5hex http cp fs file =
        { events := [], log := [cp ++ "/" ++ file.file_name], out := .ok fs }) ∧
    (file.md5 = none →
      (processEntry md5hex http cp fs file).out = .error .keyError) := by
  constructor
  · intro w hm htr hex
    have hv0 : verify_md5sum md5hex fs (cp ++ "/" ++ file.file_name) w = ([], .ok true) := by
      rw [verify_md5sum, if_neg hex, if_pos htr]
    rw [processEntry_verify_true md5hex http cp fs file w h1 h2 hm (by rw [hv0]), hv0]
    simp
  · intro hm
    rw [processEntry_keyError md5hex http cp fs file h1 h2 hm]

/-- Witness for the amended C7: an existing file with an empty expected
digest is accepted as-is, nothing is fetched and nothing raises, although
its content hashes to something else entirely. -/
theorem c7_missing_digest_witness :
    processEntry md5X httpOK "/dl/ce-full" fsA ⟨"a.bin", some (some ""), none, none⟩ =
      { events := [], log := ["/dl/ce-full" ++ "/" ++ "a.bin"], out := .ok fsA } :=
  (c7_missing_digest md5X httpOK "/dl/ce-full" fsA ⟨"a.bin", some (some ""), none, none⟩
      (by decide) (by decide)).1 (some "") rfl (by decide) (by decide)

/-- Every Fetcher invocation of one recognized category's run targets a
flat path under that category's directory. -/
theorem syncCategory_events_shape (md5hex : List Nat → String) (http : String → HTTPResp)
    (dp category : String) (files : CatValue) (fs : FS) (ev : Event)
    (h : ev ∈ (syncCategory md5hex http dp category files fs).events) :
    ∃ name, ev.2 = (dp ++ "/" ++ category) ++ "/" ++ name ∧ '/' ∉ name.toList := by
  simp only [syncCategory] at h
  split at h
  all_goals
    obtain ⟨e, he, hshape, hsl⟩ :=
      runEntries_events_shape (processEntry md5hex http (dp ++ "/" ++ category))
        (fun ev e => ev = (e.file_name, (dp ++ "/" ++ category) ++ "/" ++ e.file_name)
          ∧ '/' ∉ e.file_name.toList)
        (processEntry_events_shape md5hex http (dp ++ "/" ++ category))
        (flattenCat files) _ ev h
  all_goals exact ⟨e.file_name, by rw [hshape], hsl⟩

/-- An unknown top-level key in downloader.py: one diagnostic line, no
events of its own, no exception, and the remaining keys processed on the
same filesystem. -/
theorem sync_everything_unknown (md5hex : List Nat → String) (http : String → HTTPResp)
    (dp : String) (fs : FS) (category : String) (files : CatValue)
    (rest : List (String × CatValue)) (h : category ∉ CATEGORIES) :
    sync_everything md5hex http dp fs ((category, files) :: rest) =
      { events := (sync_everything md5hex http dp fs rest).events,
        log := ("unknown category: " ++ category ++ ", skipping...")
               :: (sync_everything md5hex http dp fs rest).log,
        out := (sync_everything md5hex http dp fs rest).out } := by
  rw [sync_everything, if_neg h]

/-- Every Fetcher invocation of a whole downloader.py sync run targets a
flat path under the directory of one of the four recognized categories. -/
theorem sync_everything_events_shape (md5hex : List Nat → String) (http : String → HTTPResp)
    (dp : String) :
    ∀ (cats : List (String × CatValue)) (fs : FS) (ev : Event),
      ev ∈ (sync_everything md5hex http dp fs cats).events →
      ∃ cat ∈ CATEGORIES, ∃ name,
        ev.2 = (dp ++ "/" ++ cat) ++ "/" ++ name ∧ '/' ∉ name.toList := by
  intro cats
  induction cats with
  | nil =>
    intro fs ev h
    simp [sync_everything] at h
  | cons c rest ih =>
    obtain ⟨category, files⟩ := c
    intro fs ev h
    by_cases hc : category ∈ CATEGORIES
    · simp only [sync_everything, if_pos hc] at h
      split at h
      · obtain ⟨name, hn, hsl⟩ :=
          syncCategory_events_shape md5hex http dp category files fs ev h
        exact ⟨category, hc, name, hn, hsl⟩
      · rcases List.mem_append.mp h with hl | hr
        · obtain ⟨name, hn, hsl⟩ :=
            syncCategory_events_shape md5hex http dp category files fs ev hl
          exact ⟨category, hc, name, hn, hsl⟩
        · exact ih _ ev hr
    · simp only [sync_everything, if_neg hc] at h
      exact ih fs ev h

/-- An unknown top-level key in sync.py: the assert fires and the run
aborts with AssertionError. -/
theorem syncpy_unknown (md5hex : List Nat → String) (http : String → HTTPResp)
    (fs : FS) (category : String) (files : CatValue) (rest : List (String × CatValue))
    (h : category ∉ ["other", "ee-full", "ce-full", "ee-patch", "ce-patch"]) :
    SyncPy.sync_everything md5hex http fs ((category, files) :: rest) =
      { events := [], log := [], out := .error .assertionError } := by
  rw [SyncPy.sync_everything, if_neg h]

/--
Claim C3 counterexample: the claim says an unknown top-level catalog key
never raises and never aborts a sync run, and that entries under the
recognized category "other" are never synced.  The sync.py variant of
sync_everything refutes both on concrete input: the key "legacy" trips
its assert and aborts the run with AssertionError, and an "other" entry
with a missing target is passed to the Fetcher.
-/
theorem c3_counterexample :
    (SyncPy.sync_everything md5X httpOK fsEmpty [("legacy", .entries [])]).out
        = .error .assertionError ∧
    (SyncPy.sync_everything md5X httpOK fsEmpty
        [("other", .entries [⟨"a.bin", some (some "ff"), none, none⟩])]).events
      = [("a.bin", "other/a.bin")] := ⟨rfl, rfl⟩

/--
Claim C3 (amended): in downloader.py the claim holds: a sync run downloads
files only for the four categories ee-full, ce-full, ee-patch, ce-patch;
"other" is not among them, and an unknown top-level key produces one
diagnostic, no download, no exception, and the run continues.  In the
sync.py variant, however, an unknown top-level key raises AssertionError
and aborts the run, and a key "other" passes its assert and is synced.
-/
theorem c3_category_policy (md5hex : List Nat → String) (http : String → HTTPResp)
    (dp : String) (fs : FS) :
    ("other" ∉ CATEGORIES) ∧
    (∀ category files rest, category ∉ CATEGORIES →
      sync_everything md5hex http dp fs ((category, files) :: rest) =
        { events := (sync_everything md5hex http dp fs rest).events,
          log := ("unknown category: " ++ category ++ ", skipping...")
                 :: (sync_everything md5hex http dp fs rest).log,
          out := (sync_everything md5hex http dp fs rest).out }) ∧
    (∀ cats fs2 ev, ev ∈ (sync_everything md5hex http dp fs2 cats).events →
      ∃ cat ∈ CATEGORIES, ∃ name,
        ev.2 = (dp ++ "/" ++ cat) ++ "/" ++ name ∧ '/' ∉ name.toList) ∧
    (∀ category files rest,
      category ∉ ["other", "ee-full", "ce-full", "ee-patch", "ce-patch"] →
      SyncPy.sync_everything md5hex http fs ((category, files) :: rest) =
        { events := [], log := [], out := .error .assertionError }) :=
  ⟨by decide,
   fun category files rest h => sync_everything_unknown md5hex http dp fs category files rest h,
   fun cats fs2 ev h => sync_everything_events_shape md5hex http dp cats fs2 ev h,
   fun category files rest h => syncpy_unknown md5hex http fs category files rest h⟩

/-- Witness for the amended C3: the unknown key "legacy" is logged and
skipped by the downloader.py loop on concrete input. -/
theorem c3_category_policy_witness :
    ("legacy" ∉ CATEGORIES) ∧
    sync_everything md5X httpOK "/dl" fsEmpty [("legacy", .entries [])] =
      { events := (sync_everything md5X httpOK "/dl" fsEmpty []).events,
        log := ("unknown category: " ++ "legacy" ++ ", skipping...")
               :: (sync_everything md5X httpOK "/dl" fsEmpty []).log,
        out := (sync_everything md5X httpOK "/dl" fsEmpty []).out } :=
  ⟨by decide,
   (c3_category_policy md5X httpOK "/dl" fsEmpty).2.1 "legacy" (.entries []) [] (by decide)⟩

/-- Adding a patch: `v2p[k].add(n)` puts `n` in the set under `k`. -/
theorem memV2P_addPatch_self (m : V2P) (k n : String) : memV2P (addPatch m k n) k n := by
  induction m with
  | nil => exact ⟨(k, [n]), List.mem_singleton.mpr rfl, rfl, List.mem_singleton.mpr rfl⟩
  | cons p t ih =>
    obtain ⟨k2, s⟩ := p
    by_cases hk : k2 = k
    · refine ⟨(k2, if n ∈ s then s else s ++ [n]), ?_, hk, ?_⟩
      · rw [addPatch, if_pos hk]
        exact List.mem_cons_self _ _
      · by_cases hn : n ∈ s
        · rw [if_pos hn]; exact hn
        · rw [if_neg hn]
          exact List.mem_append.mpr (Or.inr (List.mem_singleton.mpr rfl))
    · obtain ⟨q, hq, hq1, hq2⟩ := ih
      refine ⟨q, ?_, hq1, hq2⟩
      rw [addPatch, if_neg hk]
      exact List.mem_cons_of_mem _ hq

/-- Adding a patch under `k3` keeps every name already in the set under any key. -/
theorem memV2P_addPatch_mono (m : V2P) (k x k3 n : String) (h : memV2P m k x) :
    memV2P (addPatch m k3 n) k x := by
  induction m with
  | nil =>
    obtain ⟨q, hq, _, _⟩ := h
    simp at hq
  | cons p t ih =>
    obtain ⟨k2, s⟩ := p
    obtain ⟨q, hq, hq1, hq2⟩ := h
    by_cases hk : k2 = k3
    · rw [addPatch, if_pos hk]
      rcases List.mem_cons.mp hq with hq0 | hqt
      · subst hq0
        refine ⟨(k2, if n ∈ s then s else s ++ [n]), List.mem_cons_self _ _, hq1, ?_⟩
        by_cases hn : n ∈ s
        · rw [if_pos hn]; exact hq2
        · rw [if_neg hn]
          exact List.mem_append.mpr (Or.inl hq2)
      · exact ⟨q, List.mem_cons_of_mem _ hqt, hq1, hq2⟩
    · rw [addPatch, if_neg hk]
      rcases List.mem_cons.mp hq with hq0 | hqt
      · refine ⟨q, ?_, hq1, hq2⟩
        rw [hq0]
        exact List.mem_cons_self _ _
      · obtain ⟨q2, hq2m, hq21, hq22⟩ := ih ⟨q, hqt, hq1, hq2⟩
        exact ⟨q2, List.mem_cons_of_mem _ hq2m, hq21, hq22⟩

/-- Folding `addPatch` over a key list keeps existing memberships. -/
theorem memV2P_foldl_mono (ks : List String) (n : String) :
    ∀ (m : V2P) (k x : String), memV2P m k x →
      memV2P (ks.foldl (fun m2 v => addPatch m2 v n) m) k x := by
  induction ks with
  | nil => intro m k x h; exact h
  | cons v vs ih =>
    intro m k x h
    exact ih (addPatch m v n) k x (memV2P_addPatch_mono m k x v n h)

/-- Folding `addPatch` over a key list records `n` under every key of it. -/
theorem memV2P_foldl_self (ks : List String) (n : String) :
    ∀ (m : V2P) (k : String), k ∈ ks →
      memV2P (ks.foldl (fun m2 v => addPatch m2 v n) m) k n := by
  induction ks with
  | nil => intro m k h; simp at h
  | cons v vs ih =>
    intro m k h
    rcases List.mem_cons.mp h with h0 | hm
    · subst h0
      exact memV2P_foldl_mono vs n (addPatch m k n) k n (memV2P_addPatch_self m k n)
    · exact ih (addPatch m v n) k hm

/-- The entry loop of the Patch Indexer keeps existing memberships. -/
theorem memV2P_foldl_entries_mono (l : List CatalogEntry) :
    ∀ (m : V2P) (k x : String), memV2P m k x → memV2P (l.foldl v2pAddEntry m) k x := by
  induction l with
  | nil => intro m k x h; exact h
  | cons e t ih =>
    intro m k x h
    exact ih _ k x (memV2P_foldl_mono (entryKeys e) e.file_name m k x h)

/-- The entry loop of the Patch Indexer records each entry's file name
under each of its version keys. -/
theorem memV2P_foldl_entries_self (l : List CatalogEntry) :
    ∀ (m : V2P) (e : CatalogEntry) (k : String), e ∈ l → k ∈ entryKeys e →
      memV2P (l.foldl v2pAddEntry m) k e.file_name := by
  induction l with
  | nil => intro m e k h _; simp at h
  | cons e2 t ih =>
    intro m e k he hk
    rcases List.mem_cons.mp he with h0 | hm
    · subst h0
      exact memV2P_foldl_entries_mono t _ k _
        (memV2P_foldl_self (entryKeys e) e.file_name m k hk)
    · exact ih _ e k hm hk

/-- A key not ending in `-patch` contributes nothing to the index. -/
theorem v2pAddCat_skip (m : V2P) (c : String × CatValue)
    (h : strEndsWith c.1 "-patch" = false) : v2pAddCat m c = m := by
  rw [v2pAddCat, if_neg]
  rw [h]
  exact Bool.false_ne_true

/-- The category loop of the Patch Indexer keeps existing memberships. -/
theorem memV2P_foldl_cats_mono (cats : List (String × CatValue)) :
    ∀ (m : V2P) (k x : String), memV2P m k x → memV2P (cats.foldl v2pAddCat m) k x := by
  induction cats with
  | nil => intro m k x h; exact h
  | cons c t ih =>
    intro m k x h
    refine ih _ k x ?_
    rw [v2pAddCat]
    split
    · exact memV2P_foldl_entries_mono (flattenCat c.2) m k x h
    · exact h

/-- The category loop records each patch entry's file name under each of
its version keys. -/
theorem memV2P_foldl_cats_self (cats : List (String × CatValue)) :
    ∀ (m : V2P) (cat : String) (files : CatValue) (e : CatalogEntry) (k : String),
      (cat, files) ∈ cats → strEndsWith cat "-patch" = true → e ∈ flattenCat files →
      k ∈ entryKeys e → memV2P (cats.foldl v2pAddCat m) k e.file_name := by
  induction cats with
  | nil => intro m cat files e k h _ _ _; simp at h
  | cons c t ih =>
    intro m cat files e k hc hp he hk
    rcases List.mem_cons.mp hc with h0 | hm
    · subst h0
      refine memV2P_foldl_cats_mono t _ k _ ?_
      have hcat : v2pAddCat m (cat, files) = (flattenCat files).foldl v2pAddEntry m := by
        rw [v2pAddCat, if_pos hp]
      rw [hcat]
      exact memV2P_foldl_entries_self (flattenCat files) m e k he hk
    · exact ih _ cat files e k hm hp he hk

/-- Membership in the index is preserved by permutation (used to cross
the final sort). -/
theorem memV2P_of_perm {m m2 : V2P} (h : m.Perm m2) (k x : String)
    (hm : memV2P m k x) : memV2P m2 k x := by
  obtain ⟨q, hq, h1, h2⟩ := hm
  exact ⟨q, h.mem_iff.mp hq, h1, h2⟩

/-- The lexicographic comparison of character lists is total. -/
theorem charListLe_total : ∀ as bs : List Char,
    charListLe as bs = true ∨ charListLe bs as = true := by
  intro as
  induction as with
  | nil => intro bs; exact Or.inl rfl
  | cons a as ih =>
    intro bs
    cases bs with
    | nil => exact Or.inr rfl
    | cons b bs =>
      by_cases hab : a = b
      · subst hab
        rcases ih bs with h | h
        · exact Or.inl (by rw [charListLe, if_pos rfl]; exact h)
        · exact Or.inr (by rw [charListLe, if_pos rfl]; exact h)
      · rcases lt_or_gt_of_ne hab with h | h
        · exact Or.inl (by rw [charListLe, if_neg hab]; exact decide_eq_true h)
        · exact Or.inr (by rw [charListLe, if_neg (Ne.symm hab)]; exact decide_eq_true h)

/-- The lexicographic comparison of character lists is transitive. -/
theorem charListLe_trans : ∀ as bs cs : List Char,
    charListLe as bs = true → charListLe bs cs = true → charListLe as cs = true := by
  intro as
  induction as with
  | nil => intro bs cs _ _; rfl
  | cons a as ih =>
    intro bs cs h1 h2
    cases bs with
    | nil => exact absurd h1 (by rw [charListLe]; simp)
    | cons b bs =>
      cases cs with
      | nil => exact absurd h2 (by rw [charListLe]; simp)
      | cons c cs =>
        by_cases hab : a = b
        · subst hab
          by_cases hac : a = c
          · subst hac
            rw [charListLe, if_pos rfl] at h1 h2 ⊢
            exact ih bs cs h1 h2
          · rw [charListLe, if_pos rfl] at h1
            rw [charListLe, if_neg hac] at h2 ⊢
            exact h2
        · rw [charListLe, if_neg hab] at h1
          have hab2 : a < b := of_decide_eq_true h1
          by_cases hbc : b = c
          · subst hbc
            rw [charListLe, if_neg hab]
            exact decide_eq_true hab2
          · rw [charListLe, if_neg hbc] at h2
            have hbc2 : b < c := of_decide_eq_true h2
            have hac : a < c := lt_trans hab2 hbc2
            rw [charListLe, if_neg (ne_of_lt hac)]
            exact decide_eq_true hac

instance : IsTotal (String × List String) keyLE :=
  ⟨fun a b => charListLe_total a.1.toList b.1.toList⟩

instance : IsTrans (String × List String) keyLE :=
  ⟨fun a b c h1 h2 => charListLe_trans a.1.toList b.1.toList c.1.toList h1 h2⟩

/--
Claim C9: the Patch Requirement Indexer considers only categories ending
in -patch; for each patch entry and each version v of its ee_versions the
file name is in the set keyed by "EE " followed by v, and for each v of
its ce_versions in the set keyed by "CE " followed by v; the output is
iterated in lexicographic order of the version keys; and on the spec's
two-entry example it yields exactly "CE 1.9.0" to the set of p2 before
"EE 1.14.0" to the set of p1 and p2.
-/
theorem c9_patch_index :
    (∀ (cat : String) (files : CatValue) (rest : List (String × CatValue)),
      strEndsWith cat "-patch" = false →
      calc_req_patches ((cat, files) :: rest) = calc_req_patches rest) ∧
    (∀ (all : List (String × CatValue)) (cat : String) (files : CatValue)
        (e : CatalogEntry) (v : String),
      (cat, files) ∈ all → strEndsWith cat "-patch" = true → e ∈ flattenCat files →
      (v ∈ e.ee_versions.getD [] →
        memV2P (calc_req_patches all) ("EE " ++ v) e.file_name) ∧
      (v ∈ e.ce_versions.getD [] →
        memV2P (calc_req_patches all) ("CE " ++ v) e.file_name)) ∧
    (∀ all, List.Sorted keyLE (calc_req_patches all)) ∧
    (calc_req_patches
        [("ee-patch", .entries
          [⟨"p1", none, some ["1.14.0"], none⟩,
           ⟨"p2", none, some ["1.14.0"], some ["1.9.0"]⟩])]
      = [("CE 1.9.0", ["p2"]), ("EE 1.14.0", ["p1", "p2"])]) := by
  refine ⟨?_, ?_, ?_, by decide⟩
  · intro cat files rest h
    rw [calc_req_patches, calc_req_patches, List.foldl_cons,
        v2pAddCat_skip [] (cat, files) h]
  · intro all cat files e v hc hp he
    constructor
    · intro hv
      have hk : ("EE " ++ v) ∈ entryKeys e :=
        List.mem_append.mpr (Or.inl (List.mem_map.mpr ⟨v, hv, rfl⟩))
      exact memV2P_of_perm (List.perm_insertionSort keyLE _).symm _ _
        (memV2P_foldl_cats_self all [] cat files e ("EE " ++ v) hc hp he hk)
    · intro hv
      have hk : ("CE " ++ v) ∈ entryKeys e :=
        List.mem_append.mpr (Or.inr (List.mem_map.mpr ⟨v, hv, rfl⟩))
      exact memV2P_of_perm (List.perm_insertionSort keyLE _).symm _ _
        (memV2P_foldl_cats_self all [] cat files e ("CE " ++ v) hc hp he hk)
  · intro all
    rw [calc_req_patches]
    exact List.sorted_insertionSort keyLE _

/-- Witness for C9: on the spec's two-entry example, p1 is recorded under
the key EE 1.14.0. -/
theorem c9_patch_index_witness :
    (("ee-patch", CatValue.entries
        [⟨"p1", none, some ["1.14.0"], none⟩,
         ⟨"p2", none, some ["1.14.0"], some ["1.9.0"]⟩])
      ∈ [(("ee-patch" : String), CatValue.entries
        [⟨"p1", none, some ["1.14.0"], none⟩,
         ⟨"p2", none, some ["1.14.0"], some ["1.9.0"]⟩])]) ∧
    memV2P (calc_req_patches
        [("ee-patch", .entries
          [⟨"p1", none, some ["1.14.0"], none⟩,
           ⟨"p2", none, some ["1.14.0"], some ["1.9.0"]⟩])])
      ("EE " ++ "1.14.0") "p1" :=
  ⟨List.mem_singleton.mpr rfl,
   ((c9_patch_index).2.1
      [("ee-patch", .entries
        [⟨"p1", none, some ["1.14.0"], none⟩,
         ⟨"p2", none, some ["1.14.0"], some ["1.9.0"]⟩])]
      "ee-patch"
      (.entries
        [⟨"p1", none, some ["1.14.0"], none⟩,
         ⟨"p2", none, some ["1.14.0"], some ["1.9.0"]⟩])
      ⟨"p1", none, some ["1.14.0"], none⟩ "1.14.0"
      (List.mem_singleton.mpr rfl) (by decide) (by decide)).1 (by decide)⟩

end Magento
